import Mathlib

/-!
# Verification of the broadcast_automation backend core

Shallow embedding of the Python backend (`python-backend/main.py`,
`python-backend/services/storage_service.py`) of the
`broadcast_automation` repository, together with proofs settling the
frozen claims about it.

Modelling conventions:
* Python strings are Lean `String`; `s[-10:]` is `pyLast10`,
  `s.lower().strip()` is `pyStrip (pyLower s)`.
* Wall-clock timestamps (`datetime.now()`) are an explicit `Nat`
  parameter `now` threaded into each operation that reads the clock.
* Python `dict` (insertion-ordered, value overwritten in place on key
  reassignment) is an association list with the in-place upsert
  `dictInsert`; `dict.values()` is mapping `Prod.snd`.
* `list(set(xs))` has unspecified order in Python; it is modelled by
  `List.dedup`, and theorems about it only compare the result as a set
  (`toFinset`).
* A FastAPI `HTTPException` raised by an endpoint is `Except.error`;
  the endpoint body up to the raise has performed no store write, which
  the model captures explicitly where a claim needs it.
-/

namespace BroadcastAutomation

/-! ## Python string primitives -/

/-- Python `s[-10:]`: the last `min 10 (length s)` characters of `s`. -/
def pyLast10 (s : String) : String :=
  String.mk (s.data.drop (s.data.length - 10))

/-- Python `s.lower()` (ASCII-adequate model). -/
def pyLower (s : String) : String :=
  String.mk (s.data.map Char.toLower)

/-- Python `s.strip()`: remove leading and trailing whitespace. -/
def pyStrip (s : String) : String :=
  String.mk (((s.data.dropWhile Char.isWhitespace).reverse.dropWhile
      Char.isWhitespace).reverse)

/-! ## Data model (models/schemas.py and the stored JSON dicts) -/

/-- A contact, as in `models/schemas.py` (`Contact`). -/
structure Contact where
  id : String
  name : String
  phone : String
  avatar : Option String := none
deriving Repr, DecidableEq

/-- A broadcast list, as stored in the JSON document.  Raw stored dicts
may carry either spelling of the auto-generated flag, so both are
fields; `synced_from` / `synced_at` are stamped only by the merge
engine. -/
structure BroadcastList where
  id : String
  name : String
  members : List Contact
  created_at : Nat := 0
  is_auto_generated : Bool := false
  isAutoGenerated : Bool := false
  synced_from : Option String := none
  synced_at : Option Nat := none
deriving Repr, DecidableEq

/-- A log entry as built by `storage_service.add_log`. -/
structure LogEntry where
  id : String
  timestamp : Nat
  action : String
  status : String
  details : Option String := none
deriving Repr, DecidableEq

/-- The whole persisted JSON document (`storage.json`). -/
structure StoreDocument where
  lists : List BroadcastList
  logs : List LogEntry
  last_sync : Option Nat := none
deriving Repr, DecidableEq

/-! ## Log ring buffer (storage_service.add_log, get_logs, clear_data) -/

/-- The entry `add_log` constructs (`id = f"log-{timestamp}"`). -/
def mkLog (now : Nat) (action status : String) (details : Option String) :
    LogEntry :=
  { id := "log-" ++ toString now, timestamp := now, action := action,
    status := status, details := details }

/-- `storage_service.add_log`: `logs.insert(0, log); logs = logs[:100]`.
Returns the updated document and the entry, as the Python does. -/
def add_log (now : Nat) (action status : String) (details : Option String)
    (data : StoreDocument) : StoreDocument × LogEntry :=
  let log := mkLog now action status details
  ({ data with logs := (log :: data.logs).take 100 }, log)

/-- `storage_service.get_logs`. -/
def get_logs (data : StoreDocument) : List LogEntry := data.logs

/-- `storage_service.clear_data`: resets to the empty document. -/
def clear_data : StoreDocument :=
  { lists := [], logs := [], last_sync := none }

/-- The `DELETE /api/logs` endpoint (`main.clear_logs`): it only calls
`add_log("Logs cleared", "success")` and never calls `clear_data`. -/
def clear_logs (now : Nat) (data : StoreDocument) : StoreDocument :=
  (add_log now "Logs cleared" "success" none data).1

/-! ## Flat store save and merge engine (storage_service) -/

/-- `storage_service.save_lists`: overwrite `lists`, refresh `last_sync`. -/
def save_lists (lists : List BroadcastList) (now : Nat)
    (data : StoreDocument) : StoreDocument :=
  { data with lists := lists, last_sync := some now }

/-- Update-at-key on a Python-style insertion-ordered dict modelled as
an association list: if the key is present its value is replaced in
place by `f (some oldValue)`, otherwise the pair `(k, f none)` is
appended at the end. -/
def dictUpdate {α : Type} (d : List (String × α)) (k : String)
    (f : Option α → α) : List (String × α) :=
  match d with
  | [] => [(k, f none)]
  | (k0, v0) :: rest =>
    if k0 = k then (k0, f (some v0)) :: rest
    else (k0, v0) :: dictUpdate rest k f

/-- Python `dict` assignment `d[k] = v`. -/
def dictInsert {α : Type} (d : List (String × α)) (k : String) (v : α) :
    List (String × α) :=
  dictUpdate d k (fun _ => v)

/-- Python `d.get(k)` / `d[k]` lookup on the association-list dict. -/
def dlookup {α : Type} (d : List (String × α)) (k : String) : Option α :=
  match d with
  | [] => none
  | (k0, v0) :: rest => if k0 = k then some v0 else dlookup rest k

/-- The stamping the merge engine applies to each incoming list:
`new_list["synced_from"] = device_id; new_list["synced_at"] = now`. -/
def stamp (device_id : String) (now : Nat) (l : BroadcastList) :
    BroadcastList :=
  { l with synced_from := some device_id, synced_at := some now }

/-- The dict `{l["id"]: l for l in data["lists"]}`. -/
def listsById (lists : List BroadcastList) : List (String × BroadcastList) :=
  lists.foldl (fun d l => dictInsert d l.id l) []

/-- The merge loop of `sync_from_android`: stamp each incoming list and
assign it at its id. -/
def mergeIncoming (device_id : String) (now : Nat)
    (d : List (String × BroadcastList)) (incoming : List BroadcastList) :
    List (String × BroadcastList) :=
  incoming.foldl
    (fun d l =>
      let l2 := stamp device_id now l
      dictInsert d l2.id l2) d

/-- Result record of `sync_from_android`. -/
structure SyncResult where
  synced : Nat
  total : Nat
  timestamp : Nat
deriving Repr, DecidableEq

/-- `storage_service.sync_from_android`: identity-keyed last-write-wins
upsert of the incoming lists into the stored ones. -/
def sync_from_android (device_id : String) (now : Nat)
    (incoming : List BroadcastList) (data : StoreDocument) :
    StoreDocument × SyncResult :=
  let existing := listsById data.lists
  let merged := mergeIncoming device_id now existing incoming
  let newLists := merged.map Prod.snd
  ({ data with lists := newLists, last_sync := some now },
   { synced := incoming.length, total := newLists.length, timestamp := now })

/-! ## List endpoints (main.create_list, main.delete_list) -/

/-- `POST /api/lists` (`main.create_list`): append the new list with no
id check, save, then log. -/
def create_list (now : Nat) (l : BroadcastList) (data : StoreDocument) :
    StoreDocument :=
  let data1 := save_lists (data.lists ++ [l]) now data
  (add_log now ("Created list " ++ l.name) "success"
    (some (toString l.members.length ++ " members")) data1).1

/-- `DELETE /api/lists/{list_id}` (`main.delete_list`): filter the list
out; if nothing was removed raise 404 (before any save), else save and
log. -/
def delete_list (now : Nat) (list_id : String) (data : StoreDocument) :
    Except String StoreDocument :=
  if (data.lists.filter (fun l => l.id ≠ list_id)).length
      = data.lists.length then
    Except.error "List not found"
  else
    Except.ok ((add_log now ("Deleted list " ++ list_id) "success" none
      (save_lists (data.lists.filter (fun l => l.id ≠ list_id)) now data)).1)

/-- The document persisted on disk after a `delete_list` call: on the
404 path the exception is raised before `save_lists`, so the stored
document is untouched. -/
def persistedAfterDelete (now : Nat) (list_id : String)
    (data : StoreDocument) : StoreDocument :=
  match delete_list now list_id data with
  | Except.error _ => data
  | Except.ok d => d

/-! ## Common-member aggregator (main.get_common_members) -/

/-- A stored list is a source list unless either spelling of the
auto-generated flag is set. -/
def isSourceList (l : BroadcastList) : Bool :=
  !l.is_auto_generated && !l.isAutoGenerated

/-- The aggregation identity key of a member: `phone[-10:]` when the
phone is non-empty, else `name.lower().strip()`. -/
def memberKey (m : Contact) : String :=
  if m.phone ≠ "" then pyLast10 m.phone else pyStrip (pyLower m.name)

/-- The per-key accumulator entry of `member_counts`. -/
structure MemberInfo where
  member : Contact
  count : Nat
  in_lists : List String
deriving Repr, DecidableEq

/-- One step of the accumulation: file the member under its key unless
the key is empty (`if key:`). -/
def upsertCount (counts : List (String × MemberInfo)) (key : String)
    (m : Contact) (lname : String) : List (String × MemberInfo) :=
  dictUpdate counts key
    (fun old =>
      match old with
      | none => { member := m, count := 1, in_lists := [lname] }
      | some info =>
        { member := info.member, count := info.count + 1,
          in_lists := info.in_lists ++ [lname] })

/-- Process one `(list-name, member)` pair of the nested loops. -/
def processPair (counts : List (String × MemberInfo))
    (p : String × Contact) : List (String × MemberInfo) :=
  let key := memberKey p.2
  if key = "" then counts else upsertCount counts key p.2 p.1

/-- The `(lst["name"], member)` pairs visited by the nested loops, in
visit order. -/
def memberPairs (source_lists : List BroadcastList) :
    List (String × Contact) :=
  source_lists.flatMap (fun lst => lst.members.map (fun m => (lst.name, m)))

/-- The fully built `member_counts` dict. -/
def buildCounts (source_lists : List BroadcastList) :
    List (String × MemberInfo) :=
  (memberPairs source_lists).foldl processPair []

/-- An emitted common member: the representative member record spread
together with `appears_in` and `list_names`. -/
structure CommonMember where
  member : Contact
  appears_in : Nat
  list_names : List String
deriving Repr, DecidableEq

/-- Descending comparison on `appears_in`, the sort key of
`common_members.sort(key=..., reverse=True)`. -/
def cmGe (a b : CommonMember) : Prop :=
  b.appears_in ≤ a.appears_in

instance : DecidableRel cmGe := fun a b =>
  inferInstanceAs (Decidable (b.appears_in ≤ a.appears_in))

instance : IsTotal CommonMember cmGe :=
  ⟨fun a b => (Nat.le_total b.appears_in a.appears_in).imp id id⟩

instance : IsTrans CommonMember cmGe :=
  ⟨fun _ _ _ h1 h2 => Nat.le_trans h2 h1⟩

/-- The result payload of `GET /api/common-members`.  In the
insufficient-data branch `message` is set and `total_common` absent;
in the normal branch the other way round.  `success` is always true. -/
structure CommonResult where
  success : Bool
  common_members : List CommonMember
  source_lists_count : Nat
  message : Option String := none
  total_common : Option Nat := none
deriving Repr, DecidableEq

/-- The common-member record spread from one accumulator entry:
`{**info["member"], "appears_in": count, "list_names": list(set(...))}`. -/
def mkCommonMember (p : String × MemberInfo) : CommonMember :=
  { member := p.2.member, appears_in := p.2.count,
    list_names := p.2.in_lists.dedup }

/-- The list-comprehension plus sort producing `common_members`. -/
def commonMembersOf (source_lists : List BroadcastList) :
    List CommonMember :=
  ((((buildCounts source_lists).filter
    (fun p => 2 ≤ p.2.count)).map mkCommonMember).insertionSort cmGe)

/-- `GET /api/common-members` (`main.get_common_members`). -/
def get_common_members (lists : List BroadcastList) : CommonResult :=
  if (lists.filter isSourceList).length < 2 then
    { success := true, common_members := [],
      source_lists_count := (lists.filter isSourceList).length,
      message := some "Need at least 2 lists to find common members" }
  else
    { success := true,
      common_members := commonMembersOf (lists.filter isSourceList),
      source_lists_count := (lists.filter isSourceList).length,
      total_common := some (commonMembersOf (lists.filter isSourceList)).length }

/-! ## Independent (specification-side) counting functions, used to state
the aggregator claims without restating the dict algorithm. -/

/-- Total number of member occurrences across the source lists whose
identity key is `k`. -/
def occurrences (source_lists : List BroadcastList) (k : String) : Nat :=
  (memberPairs source_lists).countP (fun p => memberKey p.2 == k)

/-- The list names (with multiplicity, in visit order) under which a
member with key `k` occurs. -/
def namesContaining (source_lists : List BroadcastList) (k : String) :
    List String :=
  ((memberPairs source_lists).filter (fun p => memberKey p.2 == k)).map
    Prod.fst

/-- What the `member_counts` accumulator must say about one key `k`
after some prefix `processed` of the `(list-name, member)` pairs has
been folded in: the stored count is the number of matching processed
pairs and the stored `in_lists` are their list names in order. -/
def charAt (processed : List (String × Contact))
    (counts : List (String × MemberInfo)) (k : String) : Prop :=
  match dlookup counts k with
  | some info =>
      info.count = processed.countP (fun p => memberKey p.2 == k) ∧
      info.in_lists =
        (processed.filter (fun p => memberKey p.2 == k)).map Prod.fst
  | none => processed.countP (fun p => memberKey p.2 == k) = 0

/-- Full invariant of the accumulation loop: keys are distinct and
non-empty, each stored representative member carries the key of its entry,
and every non-empty key is correctly characterized. -/
def countsInv (processed : List (String × Contact))
    (counts : List (String × MemberInfo)) : Prop :=
  (counts.map Prod.fst).Nodup ∧
  (∀ p ∈ counts, memberKey p.2.member = p.1 ∧ p.1 ≠ "") ∧
  (∀ k : String, k ≠ "" → charAt processed counts k)

/-! ## Notification fan-out hub (main.ConnectionManager) -/

/-- A WebSocket connection as the broadcaster sees it: `healthy` says
whether `send_json` on it succeeds or raises. -/
structure Conn where
  id : Nat
  healthy : Bool
deriving Repr, DecidableEq

/-- The `for connection in self.active_connections` loop of
`ConnectionManager.broadcast`: each delivery is attempted inside
`try/except`; the pair returned is (delivered-to, collected
`disconnected`), both in iteration order.  The iterated collection is
not mutated by this sweep. -/
def sweep : List Conn → List Conn × List Conn
  | [] => ([], [])
  | c :: rest =>
    if c.healthy then ((sweep rest).1.cons c, (sweep rest).2)
    else ((sweep rest).1, (sweep rest).2.cons c)

/-- `ConnectionManager.disconnect`: remove the connection if present
(a no-op on an already-removed connection). -/
def disconnect (ws : Conn) (conns : List Conn) : List Conn :=
  if ws ∈ conns then conns.erase ws else conns

/-- `ConnectionManager.broadcast`: sweep over all live connections,
then remove every connection whose delivery failed.  Returns the new
live set and the list of connections that received the message; the
function is total — no delivery failure escapes it. -/
def broadcast (conns : List Conn) : List Conn × List Conn :=
  ((sweep conns).2.foldl (fun cs c => disconnect c cs) conns,
   (sweep conns).1)

/-! ## Sequences of log appends (for the ring-buffer claim) -/

/-- The arguments of one `add_log` call: `(now, action, status,
details)`. -/
def mkLogArg (a : Nat × String × String × Option String) : LogEntry :=
  mkLog a.1 a.2.1 a.2.2.1 a.2.2.2

/-- A sequence of `add_log` calls applied in order. -/
def add_log_seq (args : List (Nat × String × String × Option String))
    (data : StoreDocument) : StoreDocument :=
  args.foldl (fun d a => (add_log a.1 a.2.1 a.2.2.1 a.2.2.2 d).1) data

/-! ## Concrete inputs used by witnesses and counterexamples -/

/-- The two lists of the phone-folding scenario: same person, phone
written once with country code and separators and once bare. -/
def c1Lists : List BroadcastList :=
  [{ id := "L1", name := "Team",
     members := [{ id := "1", name := "Bob", phone := "+1-555-123-4567" }] },
   { id := "L2", name := "Friends",
     members := [{ id := "2", name := "Bob", phone := "5551234567" }] }]

/-- A store already holding a version of list `L1` synced by device
`devB`. -/
def c2Doc : StoreDocument :=
  { lists := [{ id := "L1", name := "Old", members := [],
                synced_from := some "devB", synced_at := some 3 }],
    logs := [] }

/-- A fresh version of list `L1` as device `devA` resyncs it. -/
def c2New : BroadcastList :=
  { id := "L1", name := "New",
    members := [{ id := "1", name := "Bob", phone := "5551234567" }] }

/-- Three live subscribers, the middle one broken. -/
def c3Conns : List Conn := [⟨1, true⟩, ⟨2, false⟩, ⟨3, true⟩]

/-- One hundred log-append calls. -/
def c4Args : List (Nat × String × String × Option String) :=
  (List.range 100).map (fun i => (i, "tick", "success", none))

/-- An empty store. -/
def c4Doc : StoreDocument := { lists := [], logs := [] }

/-- A store holding one list with id `L1`. -/
def c5Doc : StoreDocument :=
  { lists := [{ id := "L1", name := "Team", members := [] }], logs := [] }

/-- A second list reusing id `L1`. -/
def c5Dup : BroadcastList := { id := "L1", name := "Copy", members := [] }

/-- The store document produced by deleting `L1` from `c5Doc` at time 2. -/
def c5Deleted : StoreDocument :=
  { lists := [],
    logs := [mkLog 2 ("Deleted list " ++ "L1") "success" none],
    last_sync := some 2 }

/-- One auto-generated list and one source list: only one source list
remains after filtering. -/
def c6Lists : List BroadcastList :=
  [{ id := "L1", name := "Common", members := [], is_auto_generated := true },
   { id := "L2", name := "Team",
     members := [{ id := "1", name := "Bob", phone := "5551234567" }] }]

/-- A store holding one pre-existing log entry. -/
def c7Doc : StoreDocument :=
  { lists := [], logs := [mkLog 0 "old entry" "success" none] }

/-- A store holding one list with id `L1` (id `L2` is absent). -/
def c8Doc : StoreDocument :=
  { lists := [{ id := "L1", name := "Team", members := [] }], logs := [] }

/-- Two source lists sharing one member by digit-suffix folding (the
phones here carry no separator characters, so the fold applies). -/
def c9Lists : List BroadcastList :=
  [{ id := "L1", name := "Team",
     members := [{ id := "1", name := "Bob", phone := "5551234567" }] },
   { id := "L2", name := "Friends",
     members := [{ id := "2", name := "Bobby", phone := "+15551234567" }] }]

/-- Two source lists where the same phone occurs twice inside list `A`
and list `B` holds an unrelated contact. -/
def c10Lists : List BroadcastList :=
  [{ id := "L1", name := "A",
     members := [{ id := "1", name := "Bob", phone := "5551234567" },
                 { id := "3", name := "Bobby", phone := "5551234567" }] },
   { id := "L2", name := "B",
     members := [{ id := "2", name := "Carol", phone := "1112223333" }] }]

/-! ## Generic dictionary lemmas -/

theorem dlookup_dictUpdate_self {α : Type} (d : List (String × α))
    (k : String) (f : Option α → α) :
    dlookup (dictUpdate d k f) k = some (f (dlookup d k)) := by
  induction d with
  | nil => simp [dictUpdate, dlookup]
  | cons p rest ih =>
    obtain ⟨k0, v0⟩ := p
    by_cases h : k0 = k
    · subst h; simp [dictUpdate, dlookup]
    · simp [dictUpdate, dlookup, h, ih]

theorem dlookup_dictUpdate_ne {α : Type} (d : List (String × α))
    (k k' : String) (f : Option α → α) (h : k' ≠ k) :
    dlookup (dictUpdate d k f) k' = dlookup d k' := by
  induction d with
  | nil => simp [dictUpdate, dlookup, Ne.symm h]
  | cons p rest ih =>
    obtain ⟨k0, v0⟩ := p
    by_cases h1 : k0 = k
    · subst h1
      simp [dictUpdate, dlookup, Ne.symm h]
    · by_cases h2 : k0 = k'
      · subst h2; simp [dictUpdate, dlookup, h1]
      · simp [dictUpdate, dlookup, h1, h2, ih]

theorem mem_keysOf_dictUpdate {α : Type} (d : List (String × α))
    (k a : String) (f : Option α → α) :
    a ∈ (dictUpdate d k f).map Prod.fst ↔ a ∈ d.map Prod.fst ∨ a = k := by
  induction d with
  | nil => simp [dictUpdate]
  | cons p rest ih =>
    obtain ⟨k0, v0⟩ := p
    by_cases h : k0 = k
    · subst h; simp [dictUpdate]; tauto
    · simp [dictUpdate, h, ih]; tauto

theorem nodup_keysOf_dictUpdate {α : Type} (d : List (String × α))
    (k : String) (f : Option α → α) (h : (d.map Prod.fst).Nodup) :
    ((dictUpdate d k f).map Prod.fst).Nodup := by
  induction d with
  | nil => simp [dictUpdate]
  | cons p rest ih =>
    obtain ⟨k0, v0⟩ := p
    rw [List.map_cons, List.nodup_cons] at h
    by_cases hk : k0 = k
    · subst hk
      have he : dictUpdate ((k0, v0) :: rest) k0 f = (k0, f (some v0)) :: rest := by
        simp [dictUpdate]
      rw [he, List.map_cons, List.nodup_cons]
      exact h
    · have he : dictUpdate ((k0, v0) :: rest) k f = (k0, v0) :: dictUpdate rest k f := by
        simp [dictUpdate, hk]
      rw [he, List.map_cons, List.nodup_cons]
      refine ⟨?_, ih h.2⟩
      rw [mem_keysOf_dictUpdate]
      rintro (hmem | rfl)
      · exact h.1 hmem
      · exact hk rfl

theorem mem_dictUpdate {α : Type} (d : List (String × α)) (k : String)
    (f : Option α → α) (q : String × α) (hq : q ∈ dictUpdate d k f) :
    q ∈ d ∨ q = (k, f (dlookup d k)) := by
  induction d with
  | nil =>
    simp [dictUpdate, dlookup] at hq
    exact Or.inr hq
  | cons p rest ih =>
    obtain ⟨k0, v0⟩ := p
    by_cases h : k0 = k
    · subst h
      simp [dictUpdate, dlookup] at hq ⊢
      tauto
    · simp [dictUpdate, dlookup, h] at hq ⊢
      rcases hq with h1 | h1
      · tauto
      · rcases ih h1 with h2 | h2 <;> tauto

theorem mem_of_dlookup {α : Type} (d : List (String × α)) (k : String)
    (v : α) (h : dlookup d k = some v) : (k, v) ∈ d := by
  induction d with
  | nil => simp [dlookup] at h
  | cons p rest ih =>
    obtain ⟨k0, v0⟩ := p
    by_cases hk : k0 = k
    · subst hk
      simp [dlookup] at h
      simp [h]
    · simp [dlookup, hk] at h
      simp [ih h]

theorem dlookup_of_mem_nodup {α : Type} (d : List (String × α))
    (k : String) (v : α) (hnd : (d.map Prod.fst).Nodup) (h : (k, v) ∈ d) :
    dlookup d k = some v := by
  induction d with
  | nil => simp at h
  | cons p rest ih =>
    obtain ⟨k0, v0⟩ := p
    rw [List.map_cons, List.nodup_cons] at hnd
    rcases List.mem_cons.mp h with h1 | h1
    · rw [Prod.mk.injEq] at h1
      obtain ⟨e1, e2⟩ := h1
      subst e1
      subst e2
      simp [dlookup]
    · have hne : k0 ≠ k := by
        intro he
        subst he
        exact hnd.1 (List.mem_map.mpr ⟨(k0, v), h1, rfl⟩)
      simp [dlookup, hne]
      exact ih hnd.2 h1

theorem dlookup_dictInsert_self {α : Type} (d : List (String × α))
    (k : String) (v : α) : dlookup (dictInsert d k v) k = some v := by
  unfold dictInsert
  rw [dlookup_dictUpdate_self]

theorem dlookup_dictInsert_ne {α : Type} (d : List (String × α))
    (k k' : String) (v : α) (h : k' ≠ k) :
    dlookup (dictInsert d k v) k' = dlookup d k' :=
  dlookup_dictUpdate_ne d k k' (fun _ => v) h

/-! ## Merge-engine lemmas -/

theorem stamp_id (device : String) (now : Nat) (l : BroadcastList) :
    (stamp device now l).id = l.id := rfl

theorem mergeIncoming_nil (device : String) (now : Nat)
    (d : List (String × BroadcastList)) :
    mergeIncoming device now d [] = d := rfl

theorem mergeIncoming_cons (device : String) (now : Nat)
    (d : List (String × BroadcastList)) (l : BroadcastList)
    (rest : List BroadcastList) :
    mergeIncoming device now d (l :: rest) =
      mergeIncoming device now
        (dictInsert d (stamp device now l).id (stamp device now l)) rest :=
  rfl

theorem mergeIncoming_append (device : String) (now : Nat)
    (d : List (String × BroadcastList)) (ls1 ls2 : List BroadcastList) :
    mergeIncoming device now d (ls1 ++ ls2) =
      mergeIncoming device now (mergeIncoming device now d ls1) ls2 := by
  unfold mergeIncoming
  exact List.foldl_append ..

/-- The well-formedness carried through the merge: dict keys are
pairwise distinct and every stored pair maps a list id to a list with
that id. -/
def dictWF (d : List (String × BroadcastList)) : Prop :=
  (d.map Prod.fst).Nodup ∧ ∀ p ∈ d, p.2.id = p.1

theorem dictWF_dictInsert (d : List (String × BroadcastList))
    (l : BroadcastList) (h : dictWF d) : dictWF (dictInsert d l.id l) := by
  refine ⟨nodup_keysOf_dictUpdate d l.id _ h.1, ?_⟩
  intro q hq
  rcases mem_dictUpdate d l.id _ q hq with h1 | h1
  · exact h.2 q h1
  · rw [h1]

theorem dictFold_wf (lists : List BroadcastList) :
    ∀ d : List (String × BroadcastList), dictWF d →
      dictWF (lists.foldl (fun d l => dictInsert d l.id l) d) := by
  induction lists with
  | nil => intro d h; exact h
  | cons l rest ih =>
    intro d h
    exact ih (dictInsert d l.id l) (dictWF_dictInsert d l h)

theorem listsById_wf (lists : List BroadcastList) : dictWF (listsById lists) :=
  dictFold_wf lists [] ⟨List.nodup_nil, by simp⟩

theorem mergeIncoming_wf (device : String) (now : Nat)
    (incoming : List BroadcastList) :
    ∀ d, dictWF d → dictWF (mergeIncoming device now d incoming) := by
  induction incoming with
  | nil => intro d h; exact h
  | cons l rest ih =>
    intro d h
    rw [mergeIncoming_cons]
    exact ih _ (dictWF_dictInsert d (stamp device now l) h)

theorem dlookup_mergeIncoming_of_ne (device : String) (now : Nat)
    (ls : List BroadcastList) (K : String) (h : ∀ l ∈ ls, l.id ≠ K) :
    ∀ d, dlookup (mergeIncoming device now d ls) K = dlookup d K := by
  induction ls with
  | nil => intro d; rfl
  | cons l rest ih =>
    intro d
    rw [mergeIncoming_cons, ih (fun x hx => h x (List.mem_cons_of_mem l hx))]
    exact dlookup_dictInsert_ne d (stamp device now l).id K (stamp device now l)
      (Ne.symm (h l (List.mem_cons_self l rest)))

theorem dlookup_mergeIncoming_last (device : String) (now : Nat)
    (d : List (String × BroadcastList)) (l : BroadcastList)
    (post : List BroadcastList) (h : ∀ lp ∈ post, lp.id ≠ l.id) :
    dlookup (mergeIncoming device now d (l :: post)) l.id =
      some (stamp device now l) := by
  rw [mergeIncoming_cons, dlookup_mergeIncoming_of_ne device now post l.id h,
    stamp_id]
  exact dlookup_dictInsert_self d l.id (stamp device now l)

theorem filter_values_eq_dlookup (d : List (String × BroadcastList))
    (K : String) (h : dictWF d) :
    (d.map Prod.snd).filter (fun x => x.id = K) =
      (match dlookup d K with
       | some v => [v]
       | none => ([] : List BroadcastList)) := by
  induction d with
  | nil => simp [dlookup]
  | cons p rest ih =>
    obtain ⟨k0, v0⟩ := p
    obtain ⟨hnd, hid⟩ := h
    rw [List.map_cons, List.nodup_cons] at hnd
    have hv0 : v0.id = k0 := hid (k0, v0) (List.mem_cons_self _ _)
    have hrest : dictWF rest :=
      ⟨hnd.2, fun q hq => hid q (List.mem_cons_of_mem _ hq)⟩
    by_cases hk : k0 = K
    · subst hk
      have hnone : ∀ q ∈ rest, q.2.id ≠ k0 := by
        intro q hq he
        apply hnd.1
        have hq1 : q.1 = k0 := by rw [← hrest.2 q hq, he]
        rw [← hq1]
        exact List.mem_map.mpr ⟨q, hq, rfl⟩
      have hfil : (rest.map Prod.snd).filter (fun x => x.id = k0) = [] := by
        rw [List.filter_eq_nil_iff]
        intro a ha
        rcases List.mem_map.mp ha with ⟨q, hq, rfl⟩
        simp [hnone q hq]
      simp [dlookup, hv0, hfil]
    · have : v0.id ≠ K := hv0 ▸ hk
      simp [dlookup, hk, this, ih hrest]

/-! ## Log-buffer lemmas -/

theorem take_append_take (A Y : List LogEntry) (n : Nat) :
    (A ++ Y.take n).take n = (A ++ Y).take n := by
  rw [List.take_append_eq_append_take, List.take_append_eq_append_take,
    List.take_take, Nat.min_eq_left (Nat.sub_le n A.length)]

theorem add_log_seq_logs (args : List (Nat × String × String × Option String)) :
    ∀ data : StoreDocument, data.logs.length ≤ 100 →
      (add_log_seq args data).logs =
        ((args.map mkLogArg).reverse ++ data.logs).take 100 := by
  induction args with
  | nil =>
    intro data h
    simp [add_log_seq, List.take_of_length_le h]
  | cons a rest ih =>
    intro data h
    have hstep : add_log_seq (a :: rest) data =
        add_log_seq rest
          ({ data with logs := (mkLogArg a :: data.logs).take 100 }) := rfl
    have hlen : ({ data with
        logs := (mkLogArg a :: data.logs).take 100 } : StoreDocument).logs.length
          ≤ 100 := by
      show ((mkLogArg a :: data.logs).take 100).length ≤ 100
      rw [List.length_take]
      exact Nat.min_le_left _ _
    rw [hstep, ih _ hlen]
    show ((rest.map mkLogArg).reverse ++ (mkLogArg a :: data.logs).take 100).take 100
        = _
    rw [take_append_take]
    simp [List.append_assoc]

/-! ## Fan-out hub lemmas -/

theorem sweep_eq (conns : List Conn) :
    sweep conns = (conns.filter (fun c => c.healthy),
      conns.filter (fun c => !c.healthy)) := by
  induction conns with
  | nil => rfl
  | cons c rest ih =>
    by_cases h : c.healthy <;>
      simp [sweep, h, ih, List.filter_cons]

theorem disconnect_eq_erase (ws : Conn) (conns : List Conn) :
    disconnect ws conns = conns.erase ws := by
  unfold disconnect
  by_cases h : ws ∈ conns
  · rw [if_pos h]
  · rw [if_neg h, List.erase_of_not_mem h]

theorem foldl_disconnect_eq_diff (ds conns : List Conn) :
    ds.foldl (fun cs c => disconnect c cs) conns = conns.diff ds := by
  induction ds generalizing conns with
  | nil => rfl
  | cons d rest ih =>
    show rest.foldl _ (disconnect d conns) = _
    rw [disconnect_eq_erase, ih, List.diff_cons]

/-! ## Helper for the sync uniqueness result -/

theorem sync_ids_nodup (device : String) (now : Nat)
    (incoming : List BroadcastList) (data : StoreDocument) :
    (((sync_from_android device now incoming data).1.lists).map
      (fun l => l.id)).Nodup := by
  have hwf := mergeIncoming_wf device now incoming _ (listsById_wf data.lists)
  have hlists : (sync_from_android device now incoming data).1.lists
      = (mergeIncoming device now (listsById data.lists) incoming).map
          Prod.snd := rfl
  rw [hlists, List.map_map]
  have hcongr :
      ((mergeIncoming device now (listsById data.lists) incoming).map
        ((fun l => l.id) ∘ Prod.snd))
      = (mergeIncoming device now (listsById data.lists) incoming).map
          Prod.fst :=
    List.map_congr_left (fun p hp => hwf.2 p hp)
  rw [hcongr]
  exact hwf.1

/-! ## Aggregator accumulation lemmas -/

theorem dedup_toFinset (l : List String) : l.dedup.toFinset = l.toFinset := by
  ext a
  simp [List.mem_toFinset, List.mem_dedup]

theorem charAt_append_nomatch (processed : List (String × Contact))
    (counts : List (String × MemberInfo)) (p : String × Contact)
    (k : String) (hmatch : (memberKey p.2 == k) = false)
    (h : charAt processed counts k) : charAt (processed ++ [p]) counts k := by
  unfold charAt at h ⊢
  have hcount : (processed ++ [p]).countP (fun q => memberKey q.2 == k)
      = processed.countP (fun q => memberKey q.2 == k) := by
    rw [List.countP_append]
    simp [hmatch]
  have hfilter : (processed ++ [p]).filter (fun q => memberKey q.2 == k)
      = processed.filter (fun q => memberKey q.2 == k) := by
    rw [List.filter_append]
    simp [hmatch]
  cases hdl : dlookup counts k with
  | some info =>
    rw [hdl] at h
    rw [hcount, hfilter]
    exact h
  | none =>
    rw [hdl] at h
    rw [hcount]
    exact h

theorem countsInv_nil : countsInv [] [] := by
  refine ⟨List.nodup_nil, by simp, ?_⟩
  intro k _
  unfold charAt
  simp [dlookup]

theorem countsInv_step (processed : List (String × Contact))
    (counts : List (String × MemberInfo)) (p : String × Contact)
    (h : countsInv processed counts) :
    countsInv (processed ++ [p]) (processPair counts p) := by
  obtain ⟨hnd, hpair, hchar⟩ := h
  by_cases hk : memberKey p.2 = ""
  · have hpp : processPair counts p = counts := by
      unfold processPair
      rw [if_pos hk]
    rw [hpp]
    refine ⟨hnd, hpair, ?_⟩
    intro k hkne
    have hmatch : (memberKey p.2 == k) = false := by
      rw [beq_eq_false_iff_ne, hk]
      exact Ne.symm hkne
    exact charAt_append_nomatch processed counts p k hmatch (hchar k hkne)
  · have hpp : processPair counts p =
        upsertCount counts (memberKey p.2) p.2 p.1 := by
      unfold processPair
      rw [if_neg hk]
    rw [hpp]
    unfold upsertCount
    refine ⟨nodup_keysOf_dictUpdate _ _ _ hnd, ?_, ?_⟩
    · intro q hq
      rcases mem_dictUpdate _ _ _ _ hq with h1 | h1
      · exact hpair q h1
      · rw [h1]
        cases hdl : dlookup counts (memberKey p.2) with
        | none => exact ⟨rfl, hk⟩
        | some info =>
          exact ⟨(hpair _ (mem_of_dlookup counts (memberKey p.2) info hdl)).1,
            hk⟩
    · intro k hkne
      by_cases hkK : k = memberKey p.2
      · subst hkK
        unfold charAt
        rw [dlookup_dictUpdate_self]
        cases hdl : dlookup counts (memberKey p.2) with
        | none =>
          have h0 := hchar (memberKey p.2) hkne
          unfold charAt at h0
          rw [hdl] at h0
          have hfil : processed.filter
              (fun q => memberKey q.2 == memberKey p.2) = [] := by
            rw [List.filter_eq_nil_iff]
            intro a ha
            exact (by simpa using List.countP_eq_zero.mp h0 a ha)
          constructor
          · rw [List.countP_append, h0]
            simp
          · rw [List.filter_append, hfil]
            simp
        | some info =>
          have h0 := hchar (memberKey p.2) hkne
          unfold charAt at h0
          rw [hdl] at h0
          constructor
          · rw [List.countP_append, ← h0.1]
            simp
          · rw [List.filter_append, List.map_append, ← h0.2]
            simp
      · unfold charAt
        rw [dlookup_dictUpdate_ne _ _ _ _ hkK]
        have hmatch : (memberKey p.2 == k) = false := by
          rw [beq_eq_false_iff_ne]
          exact fun he => hkK he.symm
        have hres := charAt_append_nomatch processed counts p k hmatch
          (hchar k hkne)
        unfold charAt at hres
        exact hres

theorem countsInv_foldl (pairs : List (String × Contact)) :
    ∀ processed counts, countsInv processed counts →
      countsInv (processed ++ pairs) (pairs.foldl processPair counts) := by
  induction pairs with
  | nil =>
    intro processed counts h
    simpa using h
  | cons p rest ih =>
    intro processed counts h
    have h1 := countsInv_step processed counts p h
    have h2 := ih (processed ++ [p]) (processPair counts p) h1
    rw [List.foldl_cons]
    simpa [List.append_assoc] using h2

theorem buildCounts_inv (source_lists : List BroadcastList) :
    countsInv (memberPairs source_lists) (buildCounts source_lists) := by
  have h := countsInv_foldl (memberPairs source_lists) [] [] countsInv_nil
  simpa [buildCounts] using h

/-! ## Claim theorems -/

/-- C1: the claim states that the aggregation identity key — the last
10 characters of the phone string — makes `"+1-555-123-4567"` and
`"5551234567"` fold to one identity with `appearsIn = 2`.  The code
slices characters, not digits, so the two keys are `"5-123-4567"` and
`"5551234567"`, which differ, and the aggregator reports no common
member on exactly that input (contradicting the `# Last 10 digits`
comment in the source and the testable property given in the spec). -/
theorem c1_phone_folding_failing :
    memberKey { id := "1", name := "Bob", phone := "+1-555-123-4567" }
        = "5-123-4567" ∧
    memberKey { id := "2", name := "Bob", phone := "5551234567" }
        = "5551234567" ∧
    (get_common_members c1Lists).common_members = [] ∧
    (get_common_members c1Lists).source_lists_count = 2 := by
  decide

/-- C2: syncing is last-write-wins per list id.  For any store state,
if `l` is the last element of the incoming batch carrying its id, then
after `sync_from_android` exactly one stored list has that id, namely
the incoming content stamped with `synced_from = device` and
`synced_at = now`. -/
theorem c2_sync_last_write_wins (device : String) (now : Nat)
    (data : StoreDocument) (pre post : List BroadcastList)
    (l : BroadcastList) (h : ∀ lp ∈ post, lp.id ≠ l.id) :
    ((sync_from_android device now (pre ++ l :: post) data).1.lists.filter
        (fun x => x.id = l.id)) = [stamp device now l] ∧
    (stamp device now l).synced_from = some device ∧
    (stamp device now l).synced_at = some now := by
  refine ⟨?_, rfl, rfl⟩
  have hwf : dictWF (mergeIncoming device now (listsById data.lists)
      (pre ++ l :: post)) :=
    mergeIncoming_wf device now (pre ++ l :: post) _ (listsById_wf data.lists)
  have hlists : (sync_from_android device now (pre ++ l :: post) data).1.lists
      = (mergeIncoming device now (listsById data.lists)
          (pre ++ l :: post)).map Prod.snd := rfl
  rw [hlists, filter_values_eq_dlookup _ _ hwf, mergeIncoming_append,
    dlookup_mergeIncoming_last device now _ l post h]

theorem c2_sync_last_write_wins_witness :
    (∀ lp ∈ ([] : List BroadcastList), lp.id ≠ c2New.id) ∧
    (((sync_from_android "devA" 7 ([] ++ c2New :: []) c2Doc).1.lists.filter
        (fun x => x.id = c2New.id)) = [stamp "devA" 7 c2New] ∧
     (stamp "devA" 7 c2New).synced_from = some "devA" ∧
     (stamp "devA" 7 c2New).synced_at = some 7) :=
  ⟨by simp, c2_sync_last_write_wins "devA" 7 c2Doc [] [] c2New (by simp)⟩

/-- C3: a broadcast attempts delivery to every live subscriber; the
unhealthy ones are collected during the sweep (the iterated collection
is not mutated during it, see `broadcast`) and removed afterwards,
while every healthy subscriber — including those visited after a
failure — receives the message; `broadcast` is a total function, so no
delivery failure reaches its caller. -/
theorem c3_broadcast_fanout (conns : List Conn) (h : conns.Nodup) :
    (broadcast conns).2 = conns.filter (fun c => c.healthy) ∧
    (sweep conns).2 = conns.filter (fun c => !c.healthy) ∧
    (broadcast conns).1 = conns.filter (fun c => c.healthy) := by
  have hs := sweep_eq conns
  refine ⟨by rw [show (broadcast conns).2 = (sweep conns).1 from rfl, hs],
    by rw [hs], ?_⟩
  show (sweep conns).2.foldl (fun cs c => disconnect c cs) conns = _
  rw [hs, foldl_disconnect_eq_diff, List.Nodup.diff_eq_filter h]
  refine List.filter_congr ?_
  intro a ha
  by_cases hb : a.healthy <;> simp [List.mem_filter, ha, hb]

theorem c3_broadcast_fanout_witness :
    c3Conns.Nodup ∧
    ((broadcast c3Conns).2 = c3Conns.filter (fun c => c.healthy) ∧
     (sweep c3Conns).2 = c3Conns.filter (fun c => !c.healthy) ∧
     (broadcast c3Conns).1 = c3Conns.filter (fun c => c.healthy)) :=
  ⟨by decide, c3_broadcast_fanout c3Conns (by decide)⟩

/-- C4: one `add_log` grows the buffer to `min (oldLength + 1) 100`
with the new entry in front, and any sequence of at least 100 appends
leaves exactly the 100 most recent entries, most-recent-first. -/
theorem c4_log_ring_buffer :
    (∀ (now : Nat) (action status : String) (details : Option String)
        (data : StoreDocument),
      (add_log now action status details data).1.logs.length
          = min (data.logs.length + 1) 100 ∧
      (add_log now action status details data).1.logs.head?
          = some (mkLog now action status details)) ∧
    (∀ (args : List (Nat × String × String × Option String))
        (data : StoreDocument), data.logs.length ≤ 100 →
      100 ≤ args.length →
      (add_log_seq args data).logs = (args.map mkLogArg).reverse.take 100) := by
  constructor
  · intro now action status details data
    constructor
    · show ((mkLog now action status details :: data.logs).take 100).length = _
      rw [List.length_take, List.length_cons, Nat.min_comm]
    · show ((mkLog now action status details :: data.logs).take 100).head? = _
      have h100 : (100 : Nat) = 99 + 1 := rfl
      rw [h100, List.take_succ_cons, List.head?_cons]
  · intro args data h1 h2
    rw [add_log_seq_logs args data h1,
      List.take_append_of_le_length (by simpa using h2)]

theorem c4_log_ring_buffer_witness :
    ((add_log 5 "a" "success" none c4Doc).1.logs.length
        = min (c4Doc.logs.length + 1) 100 ∧
     (add_log 5 "a" "success" none c4Doc).1.logs.head?
        = some (mkLog 5 "a" "success" none)) ∧
    (c4Doc.logs.length ≤ 100 ∧ 100 ≤ c4Args.length ∧
     (add_log_seq c4Args c4Doc).logs = (c4Args.map mkLogArg).reverse.take 100) :=
  ⟨c4_log_ring_buffer.1 5 "a" "success" none c4Doc,
   by decide, by decide,
   c4_log_ring_buffer.2 c4Args c4Doc (by decide) (by decide)⟩

/-- C5 counterexample: the claim says every mutating operation
preserves id-uniqueness, but `create_list` appends without any id
check: creating a list whose id already exists yields a store with a
duplicated id. -/
theorem c5_unique_ids_counterexample :
    ((c5Doc.lists.map (fun l => l.id)).Nodup) ∧
    ¬ (((create_list 1 c5Dup c5Doc).lists.map (fun l => l.id)).Nodup) := by
  decide

/-- C5 amended: `sync_from_android` always leaves pairwise-distinct
list ids (it rebuilds the store through an id-keyed dict), and
`delete_list` preserves distinctness; `create_list` does not (see the
counterexample). -/
theorem c5_unique_ids_amended :
    (∀ (device : String) (now : Nat) (incoming : List BroadcastList)
        (data : StoreDocument),
      (((sync_from_android device now incoming data).1.lists).map
        (fun l => l.id)).Nodup) ∧
    (∀ (now : Nat) (list_id : String) (data d : StoreDocument),
      delete_list now list_id data = Except.ok d →
      (data.lists.map (fun l => l.id)).Nodup →
      (d.lists.map (fun l => l.id)).Nodup) := by
  constructor
  · exact sync_ids_nodup
  · intro now list_id data d hok hnd
    unfold delete_list at hok
    by_cases hc : (data.lists.filter (fun l => l.id ≠ list_id)).length
        = data.lists.length
    · rw [if_pos hc] at hok
      cases hok
    · rw [if_neg hc] at hok
      injection hok with he
      have hd : d.lists = data.lists.filter (fun l => l.id ≠ list_id) := by
        rw [← he]
        rfl
      rw [hd]
      exact List.Nodup.sublist ((List.filter_sublist _).map _) hnd

theorem c5_unique_ids_amended_witness :
    ((((sync_from_android "devA" 0 [c5Dup] c5Doc).1.lists).map
        (fun l => l.id)).Nodup) ∧
    (delete_list 2 "L1" c5Doc = Except.ok c5Deleted ∧
     (c5Doc.lists.map (fun l => l.id)).Nodup ∧
     (c5Deleted.lists.map (fun l => l.id)).Nodup) :=
  ⟨c5_unique_ids_amended.1 "devA" 0 [c5Dup] c5Doc,
   by rfl, by decide,
   c5_unique_ids_amended.2 2 "L1" c5Doc c5Deleted (by rfl) (by decide)⟩

/-- C6: with fewer than 2 source lists after filtering (a list is
dropped when either spelling of the auto-generated flag is set), the
aggregator returns the successful insufficient-data payload: empty
members, explanatory message, and the actual filtered count. -/
theorem c6_insufficient_lists (lists : List BroadcastList)
    (h : (lists.filter isSourceList).length < 2) :
    get_common_members lists =
      { success := true, common_members := [],
        source_lists_count := (lists.filter isSourceList).length,
        message := some "Need at least 2 lists to find common members",
        total_common := none } ∧
    (∀ l ∈ lists, (l.is_auto_generated || l.isAutoGenerated) = true →
      l ∉ lists.filter isSourceList) := by
  constructor
  · unfold get_common_members
    rw [if_pos h]
  · intro l hl hflag hmem
    have hsrc := List.of_mem_filter hmem
    unfold isSourceList at hsrc
    rcases Bool.or_eq_true_iff.mp hflag with h1 | h1 <;> simp [h1] at hsrc

theorem c6_insufficient_lists_witness :
    (c6Lists.filter isSourceList).length < 2 ∧
    (get_common_members c6Lists =
      { success := true, common_members := [],
        source_lists_count := (c6Lists.filter isSourceList).length,
        message := some "Need at least 2 lists to find common members",
        total_common := none } ∧
    (∀ l ∈ c6Lists, (l.is_auto_generated || l.isAutoGenerated) = true →
      l ∉ c6Lists.filter isSourceList)) :=
  ⟨by decide, c6_insufficient_lists c6Lists (by decide)⟩

/-- C7: the claim says exactly one entry — the trace — survives
`clear_logs`.  The endpoint only appends the trace entry and never
clears: on a store with one prior entry the buffer afterwards holds
two entries, the trace in front and the old entry still behind it. -/
theorem c7_clear_logs_failing :
    (clear_logs 1 c7Doc).logs =
      [mkLog 1 "Logs cleared" "success" none,
       mkLog 0 "old entry" "success" none] ∧
    (clear_logs 1 c7Doc).logs.length = 2 ∧
    get_logs (clear_logs 1 c7Doc) ≠ [mkLog 1 "Logs cleared" "success" none] := by
  decide

/-- C8: deleting an id absent from the store returns the 404 condition
and, the exception being raised before any save, leaves the persisted
document — in particular its list count — unchanged. -/
theorem c8_delete_not_found (now : Nat) (list_id : String)
    (data : StoreDocument) (h : ∀ l ∈ data.lists, l.id ≠ list_id) :
    delete_list now list_id data = Except.error "List not found" ∧
    persistedAfterDelete now list_id data = data ∧
    (persistedAfterDelete now list_id data).lists.length
        = data.lists.length := by
  have hfil : data.lists.filter (fun l => l.id ≠ list_id) = data.lists :=
    List.filter_eq_self.mpr (fun a ha => by simpa using h a ha)
  have herr : delete_list now list_id data = Except.error "List not found" := by
    unfold delete_list
    rw [hfil, if_pos rfl]
  refine ⟨herr, ?_, ?_⟩
  · unfold persistedAfterDelete
    rw [herr]
  · unfold persistedAfterDelete
    rw [herr]

theorem c8_delete_not_found_witness :
    (∀ l ∈ c8Doc.lists, l.id ≠ "L2") ∧
    (delete_list 3 "L2" c8Doc = Except.error "List not found" ∧
     persistedAfterDelete 3 "L2" c8Doc = c8Doc ∧
     (persistedAfterDelete 3 "L2" c8Doc).lists.length
        = c8Doc.lists.length) :=
  ⟨by decide, c8_delete_not_found 3 "L2" c8Doc (by decide)⟩

/-- C9: with at least two source lists, `common_members` holds exactly
one entry per non-empty identity key whose total occurrence count is
at least 2, annotated with `appears_in` equal to that count and
`list_names` equal — as a set — to the list names the key appeared
in, and the sequence is sorted descending by `appears_in`. -/
theorem c9_common_members_characterization (lists : List BroadcastList)
    (h2 : 2 ≤ (lists.filter isSourceList).length) :
    (∀ m ∈ (get_common_members lists).common_members,
        2 ≤ m.appears_in ∧
        m.appears_in
          = occurrences (lists.filter isSourceList) (memberKey m.member) ∧
        m.list_names.toFinset =
          (namesContaining (lists.filter isSourceList)
            (memberKey m.member)).toFinset) ∧
    (∀ k : String, k ≠ "" →
        2 ≤ occurrences (lists.filter isSourceList) k →
        ∃ m ∈ (get_common_members lists).common_members,
          memberKey m.member = k) ∧
    (((get_common_members lists).common_members.map
        (fun m => memberKey m.member)).Nodup) ∧
    List.Pairwise (fun a b : CommonMember => b.appears_in ≤ a.appears_in)
      (get_common_members lists).common_members := by
  have hcm : (get_common_members lists).common_members
      = commonMembersOf (lists.filter isSourceList) := by
    unfold get_common_members
    rw [if_neg (by omega)]
  rw [hcm]
  obtain ⟨hnd, hpair, hchar⟩ := buildCounts_inv (lists.filter isSourceList)
  have hperm : List.Perm (commonMembersOf (lists.filter isSourceList))
      (((buildCounts (lists.filter isSourceList)).filter
          (fun p => 2 ≤ p.2.count)).map mkCommonMember) :=
    List.perm_insertionSort cmGe _
  refine ⟨?_, ?_, ?_, ?_⟩
  · intro m hm
    rcases List.mem_map.mp (hperm.mem_iff.mp hm) with ⟨q, hqfil, rfl⟩
    have hqmem := List.mem_of_mem_filter hqfil
    have hqcnt : 2 ≤ q.2.count := by
      have := List.of_mem_filter hqfil
      simpa using this
    have hkey := hpair q hqmem
    have hdl : dlookup (buildCounts (lists.filter isSourceList)) q.1
        = some q.2 := dlookup_of_mem_nodup _ q.1 q.2 hnd hqmem
    have hc := hchar q.1 hkey.2
    unfold charAt at hc
    rw [hdl] at hc
    refine ⟨hqcnt, ?_, ?_⟩
    · show q.2.count
          = occurrences (lists.filter isSourceList) (memberKey q.2.member)
      rw [hkey.1]
      exact hc.1
    · show (q.2.in_lists.dedup).toFinset
          = (namesContaining (lists.filter isSourceList)
              (memberKey q.2.member)).toFinset
      rw [dedup_toFinset, hkey.1, hc.2]
      rfl
  · intro k hkne hocc
    have hc := hchar k hkne
    unfold charAt at hc
    cases hdl : dlookup (buildCounts (lists.filter isSourceList)) k with
    | none =>
      rw [hdl] at hc
      unfold occurrences at hocc
      omega
    | some info =>
      rw [hdl] at hc
      have hcnt : 2 ≤ info.count := by
        rw [hc.1]
        exact hocc
      have hmem := mem_of_dlookup _ k info hdl
      have hfil : (k, info) ∈ (buildCounts
          (lists.filter isSourceList)).filter (fun p => 2 ≤ p.2.count) :=
        List.mem_filter.mpr ⟨hmem, by simpa using hcnt⟩
      refine ⟨mkCommonMember (k, info), ?_, ?_⟩
      · exact hperm.mem_iff.mpr (List.mem_map.mpr ⟨(k, info), hfil, rfl⟩)
      · exact (hpair (k, info) hmem).1
  · have hmm := hperm.map (fun m : CommonMember => memberKey m.member)
    rw [hmm.nodup_iff, List.map_map]
    have hcongr : (((buildCounts (lists.filter isSourceList)).filter
        (fun p => 2 ≤ p.2.count)).map
          ((fun m : CommonMember => memberKey m.member) ∘ mkCommonMember))
        = ((buildCounts (lists.filter isSourceList)).filter
            (fun p => 2 ≤ p.2.count)).map Prod.fst := by
      apply List.map_congr_left
      intro q hq
      exact (hpair q (List.mem_of_mem_filter hq)).1
    rw [hcongr]
    exact List.Nodup.sublist ((List.filter_sublist _).map _) hnd
  · exact List.sorted_insertionSort cmGe _

theorem c9_common_members_characterization_witness :
    2 ≤ (c9Lists.filter isSourceList).length ∧
    ((∀ m ∈ (get_common_members c9Lists).common_members,
        2 ≤ m.appears_in ∧
        m.appears_in
          = occurrences (c9Lists.filter isSourceList) (memberKey m.member) ∧
        m.list_names.toFinset =
          (namesContaining (c9Lists.filter isSourceList)
            (memberKey m.member)).toFinset) ∧
     (∀ k : String, k ≠ "" →
        2 ≤ occurrences (c9Lists.filter isSourceList) k →
        ∃ m ∈ (get_common_members c9Lists).common_members,
          memberKey m.member = k) ∧
     (((get_common_members c9Lists).common_members.map
        (fun m => memberKey m.member)).Nodup) ∧
     List.Pairwise (fun a b : CommonMember => b.appears_in ≤ a.appears_in)
       (get_common_members c9Lists).common_members) :=
  ⟨by decide, c9_common_members_characterization c9Lists (by decide)⟩

/-- C10: occurrence counting is over total occurrences, not distinct
lists: a key occurring twice inside the single list `A` (and nowhere
else — only one list contains it) is emitted with `appears_in = 2`,
and its `list_names` deduplicates to just `["A"]`. -/
theorem c10_within_list_double_count :
    (get_common_members c10Lists).common_members =
      [{ member := { id := "1", name := "Bob", phone := "5551234567" },
         appears_in := 2, list_names := ["A"] }] ∧
    (c10Lists.filter (fun l => l.members.any
        (fun m => memberKey m == "5551234567"))).length = 1 ∧
    occurrences (c10Lists.filter isSourceList) "5551234567" = 2 := by
  decide

end BroadcastAutomation
